import Mathlib

/-!
Shallow embedding of libfbc (Team BLRS Feedback Controller Library),
src/libfbc/src/fbc.c.

Modelling conventions:
* Machine integers become `Int` (signed) or `Nat` (unsigned); none of the
  verified properties depends on wrap-around, so widths are left unbounded.
* Injected callbacks are explicit arguments or `Option`-valued fields:
  each call's return value is an input of the embedded function.  The two
  separate `fbc->sense()` reads inside `fbcStallDetect` become the two
  arguments `s1` and `s2`; the single read inside `fbcGenerateOutput`
  becomes `s`.
* The file-scope statics `_prev` / `_count` of fbc.c become an explicit
  `StallGlobals` record threaded through every call, exactly as a single
  process-wide mutable cell would behave.
* `CUR_TIME()` / `millis()` become an explicit time argument; the
  cooperative delay `taskDelayUntil(&now, FBC_LOOP_INTERVAL)` advances the
  running `now` baseline by `FBC_LOOP_INTERVAL`.
* `fbc->move` is a fire-and-forget actuation whose return value is never
  observed by the core, and `fbc->resetSense` only touches sensor-side
  state outside the controller; both are carried as capability fields for
  wiring claims but their invocation has no effect on the modelled state.
-/

set_option autoImplicit false

namespace Fbcl

/-- The plain data fields of `fbc_t` that fbc.c reads or writes.  The
struct declaration itself lives in the header `fbc.h`, which is not part
of the sources here; the fields and their signedness are taken from every
use in fbc.c (`acceptableTolerance` and `acceptableConfidence` are used
as unsigned quantities, `goal`, the dead-band bounds and `output` as
signed ones). -/
structure FbcData where
  goal : Int
  neg_deadband : Int
  pos_deadband : Int
  acceptableTolerance : Nat
  acceptableConfidence : Nat
  _confidence : Nat
  output : Int
  _prevExecution : Nat
deriving Repr, DecidableEq

/-- The file-scope statics `static int _prev` and
`static unsigned int _count` of fbc.c: one single cell shared by every
controller in the process. -/
structure StallGlobals where
  _prev : Int
  _count : Nat
deriving Repr, DecidableEq

/-- Shape of a stall-detect capability as fbc.c uses it: it receives the
controller's data, may read and rewrite the process-wide stall history,
and sees the results of its sensor reads (`s1`, `s2`). -/
abbrev StallFn : Type := FbcData → StallGlobals → Int → Int → Bool × StallGlobals

/-- `fbcStallDetect` from fbc.c, the built-in stall heuristic.  `s1` is
the result of the first `fbc->sense()` call (the delta comparison) and
`s2` the result of the second one (the history update); the early return
in the dead-band branch happens before that second read. -/
def fbcStallDetect : StallFn := fun fbc g s1 s2 =>
  let ms : Nat := fbc.acceptableTolerance >>> 3
  let min_stuck : Nat := if ms < 1 then 1 else ms
  let min_count : Nat := fbc.acceptableConfidence
  let delta : Nat := (s1 - g._prev).natAbs
  if fbc.output = fbc.neg_deadband ∨ fbc.output = fbc.pos_deadband then
    (false, { g with _count := 0 })
  else
    let count1 : Nat := if delta < min_stuck then g._count + 1 else 0
    let prev1 : Int := s2
    if count1 > min_count then (true, { _prev := 0, _count := 0 })
    else (false, { _prev := prev1, _count := count1 })

/-- Modelled from the spec: `FBC_STALL` is declared in the header
`fbc.h`, which is missing from the sources.  §4.4 of the spec requires
STALLED to be "a distinct sentinel value" from the NOT_CONFIDENT (0) and
CONFIDENT (1) outcomes of `fbcIsConfident`; we use -1. -/
def FBC_STALL : Int := -1

/-- Modelled from the spec: `FBC_LOOP_INTERVAL` is a deployment constant
declared in the missing header `fbc.h`; only its positivity matters to
the properties below. -/
def FBC_LOOP_INTERVAL : Nat := 20

/-- `fbcIsConfident` from fbc.c.  `sd` is the controller's `stallDetect`
function pointer (`none` models NULL); `s1`, `s2` are the sensor reads an
installed detector would perform. -/
def fbcIsConfident (fbc : FbcData) (sd : Option StallFn) (g : StallGlobals)
    (s1 s2 : Int) : Int × StallGlobals :=
  let out : Int := if fbc.acceptableConfidence ≤ fbc._confidence then 1 else 0
  match sd with
  | none => (out, g)
  | some f =>
      let r := f fbc g s1 s2
      if r.1 then (FBC_STALL, r.2) else (out, r.2)

/-- `fbcGenerateOutput` from fbc.c.  `compute` is the injected control
law, `s` the result of the `fbc->sense()` read, `t` the value of
`CUR_TIME()`.  Returns the clamped output and the updated controller
data; note the source never writes `fbc->output`. -/
def fbcGenerateOutput (fbc : FbcData) (compute : FbcData → Int → Int)
    (s : Int) (t : Nat) : Int × FbcData :=
  let error : Int := fbc.goal - s
  let out : Int := compute fbc error
  let out2 : Int :=
    if out < fbc.pos_deadband ∧ 0 < out then fbc.pos_deadband
    else if fbc.neg_deadband < out ∧ out < 0 then fbc.neg_deadband
    else out
  let conf : Nat :=
    if error.natAbs < fbc.acceptableTolerance then fbc._confidence + 1 else 0
  (out2, { fbc with _confidence := conf, _prevExecution := t })

/-- The sensor reads one control step consumes: `sGen` inside
`fbcGenerateOutput`, `s1`/`s2` inside a stall detector run by
`fbcIsConfident`. -/
structure StepInput where
  sGen : Int
  s1 : Int
  s2 : Int
deriving Repr, DecidableEq

/-- `fbcRunContinuous` from fbc.c: one control step
(`fbc->move(fbcGenerateOutput(fbc))`, whose actuation is unobserved)
followed by `fbcIsConfident`.  Returns the tri-state result, the updated
controller data and the updated stall globals. -/
def fbcRunContinuous (fbc : FbcData) (compute : FbcData → Int → Int)
    (sd : Option StallFn) (g : StallGlobals) (inp : StepInput) (t : Nat) :
    Int × FbcData × StallGlobals :=
  let go := fbcGenerateOutput fbc compute inp.sGen t
  let ic := fbcIsConfident go.2 sd g inp.s1 inp.s2
  (ic.1, go.2, ic.2)

/-- The environment a blocking run executes in: the injected control law,
the installed stall detector, and the sensor readings of each successive
step. -/
structure Env where
  compute : FbcData → Int → Int
  sd : Option StallFn
  inputs : Nat → StepInput

/-- The loop body of `fbcRunCompletion` from fbc.c, fuel-bounded since
the C loop need not terminate.  `timeout` and `start` are fixed for the
whole run; `k` counts steps, `now` is the running `millis()` baseline
that `taskDelayUntil` advances by `FBC_LOOP_INTERVAL`.  Returns `none`
when the fuel runs out with the loop still going, otherwise
`some (r, b, fbc, g)`: the last step result `r`, the returned
`HAS_TIMED_OUT` value `b` (true means the loop did NOT exhaust a nonzero
timeout), and the final state. -/
def fbcRunCompletionAux (env : Env) (timeout start : Nat) :
    Nat → Nat → Nat → FbcData → StallGlobals →
    Option (Int × Bool × FbcData × StallGlobals)
  | 0, _, _, _, _ => none
  | fuel + 1, k, now, fbc, g =>
      let step := fbcRunContinuous fbc env.compute env.sd g (env.inputs k) now
      let htno : Bool := decide (timeout = 0 ∨ now ≤ start + timeout)
      if step.1 ≠ 0 then some (step.1, htno, step.2.1, step.2.2)
      else if htno then
        fbcRunCompletionAux env timeout start fuel (k + 1)
          (now + FBC_LOOP_INTERVAL) step.2.1 step.2.2
      else some (step.1, false, step.2.1, step.2.2)

/-- `fbcRunCompletion` from fbc.c: both `now` and `start` begin at the
same `millis()` reading `t0`. -/
def fbcRunCompletion (env : Env) (timeout t0 fuel : Nat) (fbc : FbcData)
    (g : StallGlobals) : Option (Int × Bool × FbcData × StallGlobals) :=
  fbcRunCompletionAux env timeout t0 fuel 0 t0 fbc g

/-- A whole `fbc_t`: the data fields plus the capability pointers fbc.c
dereferences.  Required pointers may still be NULL in C, hence every
capability is `Option`-valued. -/
structure Fbc where
  move : Option (Int → Unit)
  sense : Option (Nat → Int)
  resetSense : Option (Unit → Unit)
  stallDetect : Option StallFn
  resetController : Option (FbcData → FbcData)
  compute : Option (FbcData → Int → Int)
  data : FbcData

/-- `fbcReset` from fbc.c: zero the confidence counter, invoke
`resetSense` when present (sensor-side state, outside this model), invoke
`resetController` on the controller when present, zero the goal. -/
def fbcReset (fbc : Fbc) : Fbc :=
  let d1 := { fbc.data with _confidence := 0 }
  let d2 := match fbc.resetController with
    | some f => f d1
    | none => d1
  { fbc with data := { d2 with goal := 0 } }

/-- `fbcInit` from fbc.c: store the four capability arguments and the
four thresholds, set `resetController` to NULL, then call `fbcReset`.
The source takes no `compute` argument and leaves that field untouched. -/
def fbcInit (fbc : Fbc) (move : Option (Int → Unit)) (sense : Option (Nat → Int))
    (resetSense : Option (Unit → Unit)) (stallDetect : Option StallFn)
    (neg_deadband pos_deadband : Int) (acceptableTolerance : Nat)
    (acceptableConfidence : Nat) : Fbc :=
  let fbc1 : Fbc :=
    { fbc with
      move := move
      sense := sense
      resetSense := resetSense
      stallDetect := stallDetect
      resetController := none
      data := { fbc.data with
        acceptableTolerance := acceptableTolerance
        acceptableConfidence := acceptableConfidence
        neg_deadband := neg_deadband
        pos_deadband := pos_deadband } }
  fbcReset fbc1

/-- `fbcSetGoal` from fbc.c.  The handle may be NULL (`none`); `t` is the
`CUR_TIME()` reading the timestamp would be stamped with. -/
def fbcSetGoal (fbc : Option Fbc) (new_goal : Int) (t : Nat) :
    Bool × Option Fbc :=
  match fbc with
  | none => (false, none)
  | some c =>
      if c.data.goal = new_goal then (true, some c)
      else
        (true, some { c with
          data := { c.data with goal := new_goal, _prevExecution := t } })

/-- Iterate the built-in stall heuristic over a list of per-call sensor
read pairs, collecting each call's verdict and the final history. -/
def stallTrace (fbc : FbcData) : List (Int × Int) → StallGlobals →
    List Bool × StallGlobals
  | [], g => ([], g)
  | p :: rest, g =>
      let r := fbcStallDetect fbc g p.1 p.2
      let rr := stallTrace fbc rest r.2
      (r.1 :: rr.1, rr.2)

/-- Iterate `fbcGenerateOutput` over a list of sensor readings (the
per-step actuation output is dropped, only the evolving data matters). -/
def runSteps (compute : FbcData → Int → Int) (t : Nat) :
    FbcData → List Int → FbcData
  | fbc, [] => fbc
  | fbc, s :: rest => runSteps compute t (fbcGenerateOutput fbc compute s t).2 rest

/-- Whether one sensor reading is in tolerance for a controller:
`abs(goal - s) < acceptableTolerance`, the condition `fbcGenerateOutput`
tests. -/
def inTolerance (fbc : FbcData) (s : Int) : Bool :=
  decide ((fbc.goal - s).natAbs < fbc.acceptableTolerance)

/-- Number of trailing elements of `l` satisfying `p`: the length of the
run of consecutive in-tolerance steps ending now. -/
def suffixCount (p : Int → Bool) (l : List Int) : Nat :=
  (l.reverse.takeWhile p).length

/-- The minimal per-cycle movement `fbcStallDetect` demands,
`max(1, acceptableTolerance >> 3)`, written exactly as the source
computes it. -/
def minStuck (fbc : FbcData) : Nat :=
  if fbc.acceptableTolerance >>> 3 < 1 then 1 else fbc.acceptableTolerance >>> 3

/-- The verdict of the stall-detect capability as `fbcIsConfident` sees
it: false when no capability is installed. -/
def capReportsStall (fbc : FbcData) (sd : Option StallFn) (g : StallGlobals)
    (s1 s2 : Int) : Bool :=
  match sd with
  | none => false
  | some f => (f fbc g s1 s2).1

/-- A concrete environment whose control law echoes the error and whose
first step is immediately confident (threshold 0 controller below). -/
def envC7 : Env :=
  { compute := fun _ e => e, sd := none, inputs := fun _ => ⟨0, 0, 0⟩ }

/-- A concrete controller data record with confidence threshold 0. -/
def dC7 : FbcData := ⟨0, -5, 5, 8, 0, 0, 1, 0⟩

/-- A concrete environment for the threshold-zero completion witness. -/
def envC10 : Env :=
  { compute := fun _ e => e, sd := some fbcStallDetect, inputs := fun _ => ⟨0, 0, 0⟩ }

/-- A concrete controller data record with confidence threshold 0 and an
in-range output for the threshold-zero witnesses. -/
def dC10 : FbcData := ⟨0, -5, 5, 8, 0, 0, 1, 0⟩

/-- A concrete whole controller used by the setGoal witness. -/
def fbcC8 : Fbc := ⟨none, none, none, none, none, none, ⟨3, -5, 5, 8, 2, 0, 0, 7⟩⟩

/-- A concrete whole controller carrying a `resetController` capability
and no `compute`, used to exhibit what `fbcInit` does to those fields. -/
def fbcC9 : Fbc :=
  ⟨none, none, none, none, some (fun d => d), none, ⟨7, 0, 0, 0, 9, 3, 0, 2⟩⟩

/-- A concrete whole controller for the threshold-zero counterexample. -/
def fbcC10 : Fbc :=
  ⟨none, none, none, none, some (fun d => d), some (fun _ e => e), ⟨7, 0, 0, 0, 9, 3, 0, 2⟩⟩

/-- The minimal stuck amount is always positive (the source forces it up
to 1). -/
lemma minStuck_pos (fbc : FbcData) : 0 < minStuck fbc := by
  unfold minStuck
  split <;> omega

/-- On a non-exempt call the built-in heuristic behaves as one
unconditional step of the stuck-counter machine. -/
lemma fbcStallDetect_not_exempt (fbc : FbcData) (g : StallGlobals) (s1 s2 : Int)
    (h : ¬(fbc.output = fbc.neg_deadband ∨ fbc.output = fbc.pos_deadband)) :
    fbcStallDetect fbc g s1 s2 =
      if (if (s1 - g._prev).natAbs < minStuck fbc then g._count + 1 else 0)
          > fbc.acceptableConfidence
      then (true, ⟨0, 0⟩)
      else (false,
        ⟨s2, if (s1 - g._prev).natAbs < minStuck fbc then g._count + 1 else 0⟩) := by
  unfold fbcStallDetect minStuck
  simp only [if_neg h]

/-- A call can only declare a stall when the incoming stuck count already
reached the threshold. -/
lemma fbcStallDetect_true_count (fbc : FbcData) (g : StallGlobals) (s1 s2 : Int)
    (h : (fbcStallDetect fbc g s1 s2).1 = true) :
    fbc.acceptableConfidence < g._count + 1 := by
  by_cases hex : fbc.output = fbc.neg_deadband ∨ fbc.output = fbc.pos_deadband
  · unfold fbcStallDetect at h
    simp [if_pos hex] at h
  · rw [fbcStallDetect_not_exempt fbc g s1 s2 hex] at h
    by_cases hd : (s1 - g._prev).natAbs < minStuck fbc
    · rw [if_pos hd] at h
      by_cases hc : g._count + 1 > fbc.acceptableConfidence
      · omega
      · rw [if_neg hc] at h
        simp at h
    · rw [if_neg hd] at h
      by_cases hc : 0 > fbc.acceptableConfidence
      · omega
      · rw [if_neg hc] at h
        simp at h

/-- Each call grows the stored stuck count by at most one. -/
lemma fbcStallDetect_count_le (fbc : FbcData) (g : StallGlobals) (s1 s2 : Int) :
    (fbcStallDetect fbc g s1 s2).2._count ≤ g._count + 1 := by
  by_cases hex : fbc.output = fbc.neg_deadband ∨ fbc.output = fbc.pos_deadband
  · unfold fbcStallDetect
    simp [if_pos hex]
  · rw [fbcStallDetect_not_exempt fbc g s1 s2 hex]
    by_cases hd : (s1 - g._prev).natAbs < minStuck fbc
    · rw [if_pos hd]
      split <;> simp
    · rw [if_neg hd]
      split <;> simp

/-- `fbcIsConfident` can only return 0, 1 or the stall sentinel. -/
lemma fbcIsConfident_cases (fbc : FbcData) (sd : Option StallFn)
    (g : StallGlobals) (s1 s2 : Int) :
    (fbcIsConfident fbc sd g s1 s2).1 = 0 ∨ (fbcIsConfident fbc sd g s1 s2).1 = 1
      ∨ (fbcIsConfident fbc sd g s1 s2).1 = FBC_STALL := by
  unfold fbcIsConfident
  cases sd with
  | none =>
      dsimp only
      split <;> simp
  | some f =>
      dsimp only
      split
      · simp
      · split <;> simp

/-- With threshold 0 a confidence query never answers NOT_CONFIDENT. -/
lemma fbcIsConfident_ne_zero_of_conf_zero (fbc : FbcData) (sd : Option StallFn)
    (g : StallGlobals) (s1 s2 : Int) (h : fbc.acceptableConfidence = 0) :
    (fbcIsConfident fbc sd g s1 s2).1 ≠ 0 := by
  unfold fbcIsConfident
  cases sd with
  | none => simp [h]
  | some f =>
      dsimp only
      split
      · simp [FBC_STALL]
      · simp [h]

/-- A control step never changes the goal, the thresholds or the
dead-band bounds. -/
lemma fbcGenerateOutput_fixed (fbc : FbcData) (compute : FbcData → Int → Int)
    (s : Int) (t : Nat) :
    (fbcGenerateOutput fbc compute s t).2.goal = fbc.goal
      ∧ (fbcGenerateOutput fbc compute s t).2.acceptableTolerance
          = fbc.acceptableTolerance
      ∧ (fbcGenerateOutput fbc compute s t).2.acceptableConfidence
          = fbc.acceptableConfidence := ⟨rfl, rfl, rfl⟩

/-- Running steps over a concatenation is running them in sequence. -/
lemma runSteps_append (compute : FbcData → Int → Int) (t : Nat) (fbc : FbcData)
    (l1 l2 : List Int) :
    runSteps compute t fbc (l1 ++ l2)
      = runSteps compute t (runSteps compute t fbc l1) l2 := by
  induction l1 generalizing fbc with
  | nil => rfl
  | cons s rest ih => simpa [runSteps] using ih _

/-- Runs of steps never change the goal or the tolerance. -/
lemma runSteps_fixed (compute : FbcData → Int → Int) (t : Nat) (fbc : FbcData)
    (ss : List Int) :
    (runSteps compute t fbc ss).goal = fbc.goal
      ∧ (runSteps compute t fbc ss).acceptableTolerance
          = fbc.acceptableTolerance := by
  induction ss generalizing fbc with
  | nil => exact ⟨rfl, rfl⟩
  | cons s rest ih =>
      simpa [runSteps, fbcGenerateOutput] using ih _

/-- Appending one element to the list either extends the trailing run or
clears it. -/
lemma suffixCount_snoc (p : Int → Bool) (l : List Int) (a : Int) :
    suffixCount p (l ++ [a])
      = if p a then suffixCount p l + 1 else 0 := by
  unfold suffixCount
  rw [List.reverse_append]
  simp [List.takeWhile_cons]
  split <;> simp

/-- The confidence counter after a run of steps started at confidence 0
is exactly the length of the trailing in-tolerance run. -/
lemma runSteps_confidence (compute : FbcData → Int → Int) (t : Nat)
    (fbc0 : FbcData) (ss : List Int) :
    (runSteps compute t { fbc0 with _confidence := 0 } ss)._confidence
      = suffixCount (inTolerance fbc0) ss := by
  induction ss using List.reverseRecOn with
  | nil => rfl
  | append_singleton l a ih =>
      rw [runSteps_append, suffixCount_snoc]
      have hfix := runSteps_fixed compute t { fbc0 with _confidence := 0 } l
      simp only [runSteps, fbcGenerateOutput, inTolerance]
      rw [hfix.1, hfix.2, ih]
      simp only [decide_eq_true_eq]

/-- Unfolding equation of `stallTrace` on the empty list. -/
lemma stallTrace_nil (fbc : FbcData) (g : StallGlobals) :
    stallTrace fbc [] g = ([], g) := rfl

/-- Unfolding equation of `stallTrace` on a cons cell. -/
lemma stallTrace_cons (fbc : FbcData) (p : Int × Int) (rest : List (Int × Int))
    (g : StallGlobals) :
    stallTrace fbc (p :: rest) g
      = ((fbcStallDetect fbc g p.1 p.2).1
          :: (stallTrace fbc rest (fbcStallDetect fbc g p.1 p.2).2).1,
        (stallTrace fbc rest (fbcStallDetect fbc g p.1 p.2).2).2) := rfl

/-- One perfectly stuck, non-exempt cycle: the counter climbs by one,
and the stall fires exactly when it passes the threshold. -/
lemma fbcStallDetect_stuck_step (fbc : FbcData) (v : Int) (c : Nat)
    (hex : ¬(fbc.output = fbc.neg_deadband ∨ fbc.output = fbc.pos_deadband)) :
    fbcStallDetect fbc ⟨v, c⟩ v v
      = if c + 1 > fbc.acceptableConfidence then (true, ⟨0, 0⟩)
        else (false, ⟨v, c + 1⟩) := by
  rw [fbcStallDetect_not_exempt fbc ⟨v, c⟩ v v hex]
  have h0 : ((v : Int) - (⟨v, c⟩ : StallGlobals)._prev).natAbs < minStuck fbc := by
    simpa using minStuck_pos fbc
  rw [if_pos h0]

/-- A run of perfectly stuck readings of length threshold+1 from a fresh
count reports stall exactly at its last cycle and leaves the zeroed
history behind. -/
lemma stallTrace_stuck_run (fbc : FbcData) (v : Int)
    (hex : ¬(fbc.output = fbc.neg_deadband ∨ fbc.output = fbc.pos_deadband)) :
    ∀ (n c : Nat), c + n = fbc.acceptableConfidence →
      stallTrace fbc (List.replicate (n + 1) (v, v)) ⟨v, c⟩
        = (List.replicate n false ++ [true], ⟨0, 0⟩) := by
  intro n
  induction n with
  | zero =>
      intro c hc
      have hfire : c + 1 > fbc.acceptableConfidence := by omega
      rw [List.replicate_succ, List.replicate_zero]
      simp only [stallTrace_cons, stallTrace_nil,
        fbcStallDetect_stuck_step fbc v c hex, if_pos hfire]
      simp
  | succ n ih =>
      intro c hc
      have hnof : ¬(c + 1 > fbc.acceptableConfidence) := by omega
      have hrec := ih (c + 1) (by omega)
      rw [List.replicate_succ]
      simp only [stallTrace_cons, fbcStallDetect_stuck_step fbc v c hex,
        if_neg hnof]
      rw [hrec, List.replicate_succ]
      simp

/-- No stall can be reported while the number of calls made since the
history was last cleared is still within the threshold. -/
lemma stallTrace_all_false (fbc : FbcData) :
    ∀ (inputs : List (Int × Int)) (g : StallGlobals),
      inputs.length + g._count ≤ fbc.acceptableConfidence →
      ∀ b ∈ (stallTrace fbc inputs g).1, b = false := by
  intro inputs
  induction inputs with
  | nil =>
      intro g _ b hb
      simp [stallTrace] at hb
  | cons p rest ih =>
      intro g hlen b hb
      simp only [stallTrace, List.mem_cons] at hb
      rcases hb with hb | hb
      · subst hb
        by_contra hbt
        have hbt' : (fbcStallDetect fbc g p.1 p.2).1 = true := by
          cases hB : (fbcStallDetect fbc g p.1 p.2).1 <;> simp_all
        have := fbcStallDetect_true_count fbc g p.1 p.2 hbt'
        simp only [List.length_cons] at hlen
        omega
      · have hcnt := fbcStallDetect_count_le fbc g p.1 p.2
        refine ih (fbcStallDetect fbc g p.1 p.2).2 ?_ b hb
        simp only [List.length_cons] at hlen
        omega

/-- Claim C1: the claim reads "for any two distinct controllers, invoking
stall detection on one never reads or modifies the stall history observed
by the other."  The source keeps `_prev`/`_count` as file-scope statics,
one cell for the whole process, so the claim fails: below, controller B's
second stall check answers true when B runs alone, but interposing one
stall check of the distinct controller A (which rewrites the shared
history) flips B's subsequent answer to false. -/
theorem fbcStallDetect_cross_controller_interference :
    (fbcStallDetect ⟨0, -5, 5, 0, 1, 0, 1, 0⟩
        (fbcStallDetect ⟨0, -5, 5, 0, 1, 0, 1, 0⟩ ⟨0, 0⟩ 0 0).2 0 0).1 = true
    ∧ (fbcStallDetect ⟨0, -5, 5, 0, 1, 0, 1, 0⟩
        (fbcStallDetect ⟨0, -5, 5, 0, 0, 0, 1, 0⟩
          (fbcStallDetect ⟨0, -5, 5, 0, 1, 0, 1, 0⟩ ⟨0, 0⟩ 0 0).2 100 100).2
        0 0).1 = false := by decide

/-- Claim C2: `fbcIsConfident` answers the stall sentinel exactly when
the installed stall capability reports true (taking precedence over a
confident counter), answers CONFIDENT (1) exactly when the confidence
counter has reached `acceptableConfidence` and NOT_CONFIDENT (0)
otherwise; the sentinel is distinct from both; and after any run of
control steps from a reset counter the confidence counter equals the
number of trailing consecutive in-tolerance steps. -/
theorem fbcIsConfident_tri_state :
    (∀ (fbc : FbcData) (sd : Option StallFn) (g : StallGlobals) (s1 s2 : Int),
      ((fbcIsConfident fbc sd g s1 s2).1 = FBC_STALL
        ↔ capReportsStall fbc sd g s1 s2 = true)
      ∧ (capReportsStall fbc sd g s1 s2 = false →
          ((fbcIsConfident fbc sd g s1 s2).1 = 1
            ↔ fbc.acceptableConfidence ≤ fbc._confidence)
          ∧ ((fbcIsConfident fbc sd g s1 s2).1 = 0
            ↔ fbc._confidence < fbc.acceptableConfidence)))
    ∧ (FBC_STALL ≠ 0 ∧ FBC_STALL ≠ 1)
    ∧ (∀ (compute : FbcData → Int → Int) (t : Nat) (fbc0 : FbcData)
        (ss : List Int),
        (runSteps compute t { fbc0 with _confidence := 0 } ss)._confidence
          = suffixCount (inTolerance fbc0) ss) := by
  refine ⟨?_, ⟨by decide, by decide⟩, runSteps_confidence⟩
  intro fbc sd g s1 s2
  cases sd with
  | none =>
      have hout : fbcIsConfident fbc none g s1 s2
          = (if fbc.acceptableConfidence ≤ fbc._confidence then (1 : Int) else 0,
             g) := rfl
      by_cases hc : fbc.acceptableConfidence ≤ fbc._confidence
      · rw [hout, if_pos hc]
        refine ⟨?_, fun _ => ⟨?_, ?_⟩⟩
        · simp [capReportsStall, FBC_STALL]
        · simp [hc]
        · simp
          omega
      · rw [hout, if_neg hc]
        refine ⟨?_, fun _ => ⟨?_, ?_⟩⟩
        · simp [capReportsStall, FBC_STALL]
        · simp [hc]
        · simp
          omega
  | some f =>
      have hrw : fbcIsConfident fbc (some f) g s1 s2
          = (if (f fbc g s1 s2).1 then (FBC_STALL, (f fbc g s1 s2).2)
             else ((if fbc.acceptableConfidence ≤ fbc._confidence
                then (1 : Int) else 0), (f fbc g s1 s2).2)) := rfl
      have hcap : capReportsStall fbc (some f) g s1 s2 = (f fbc g s1 s2).1 := rfl
      by_cases hb : (f fbc g s1 s2).1 = true
      · rw [hrw, if_pos hb]
        refine ⟨?_, fun hf => ?_⟩
        · simp [hcap, hb]
        · rw [hcap, hb] at hf
          exact absurd hf (by simp)
      · have hb' : (f fbc g s1 s2).1 = false := by
          cases hB : (f fbc g s1 s2).1 <;> simp_all
        rw [hrw, if_neg hb]
        by_cases hc : fbc.acceptableConfidence ≤ fbc._confidence
        · rw [if_pos hc]
          refine ⟨?_, fun _ => ⟨?_, ?_⟩⟩
          · simp [hcap, hb', FBC_STALL]
          · simp [hc]
          · simp
            omega
        · rw [if_neg hc]
          refine ⟨?_, fun _ => ⟨?_, ?_⟩⟩
          · simp [hcap, hb', FBC_STALL]
          · simp [hc]
          · simp
            omega

/-- Witness for C2: a controller whose counter 3 meets threshold 2 and
no installed detector answers CONFIDENT. -/
theorem fbcIsConfident_tri_state_witness :
    (fbcIsConfident ⟨0, -5, 5, 8, 2, 3, 1, 0⟩ none ⟨0, 0⟩ 0 0).1 = 1 :=
  ((fbcIsConfident_tri_state.1 ⟨0, -5, 5, 8, 2, 3, 1, 0⟩ none ⟨0, 0⟩ 0 0).2
    rfl).1.mpr (by decide)

/-- Claim C3: the dead-band clamp inside `fbcGenerateOutput`: a raw
control-law output strictly between 0 and `pos_deadband` becomes exactly
`pos_deadband`, strictly between `neg_deadband` and 0 becomes exactly
`neg_deadband`, and a raw output of 0 passes through unchanged. -/
theorem fbcGenerateOutput_deadband_clamp (fbc : FbcData)
    (compute : FbcData → Int → Int) (s : Int) (t : Nat) :
    (0 < compute fbc (fbc.goal - s) →
      compute fbc (fbc.goal - s) < fbc.pos_deadband →
      (fbcGenerateOutput fbc compute s t).1 = fbc.pos_deadband)
    ∧ (fbc.neg_deadband < compute fbc (fbc.goal - s) →
      compute fbc (fbc.goal - s) < 0 →
      (fbcGenerateOutput fbc compute s t).1 = fbc.neg_deadband)
    ∧ (compute fbc (fbc.goal - s) = 0 →
      (fbcGenerateOutput fbc compute s t).1 = compute fbc (fbc.goal - s)) := by
  refine ⟨fun h1 h2 => ?_, fun h1 h2 => ?_, fun h0 => ?_⟩ <;>
    · simp only [fbcGenerateOutput]
      split_ifs <;> omega

/-- Witness for C3: goal 10, sensed 0, law output 3 strictly inside
(0, 5) is clamped up to 5. -/
theorem fbcGenerateOutput_deadband_clamp_witness :
    (fbcGenerateOutput ⟨10, -5, 5, 8, 2, 0, 0, 0⟩ (fun _ e => e - 7) 0 0).1 = 5 :=
  (fbcGenerateOutput_deadband_clamp ⟨10, -5, 5, 8, 2, 0, 0, 0⟩
    (fun _ e => e - 7) 0 0).1 (by decide) (by decide)

/-- Claim C4: the built-in stall heuristic is one-shot.  On a non-exempt
call it reports stall exactly when the updated stuck count exceeds
`acceptableConfidence`; whenever it reports stall it resets both history
cells to their zero states; a run of threshold+1 perfectly stuck
non-exempt cycles from a fresh count reports stall at its last cycle
only; and from the zeroed history no further stall can be reported within
`acceptableConfidence` calls, whatever the readings. -/
theorem fbcStallDetect_one_shot :
    (∀ (fbc : FbcData) (g : StallGlobals) (s1 s2 : Int),
      fbc.output ≠ fbc.neg_deadband → fbc.output ≠ fbc.pos_deadband →
      ((fbcStallDetect fbc g s1 s2).1 = true
        ↔ fbc.acceptableConfidence <
            (if (s1 - g._prev).natAbs < minStuck fbc then g._count + 1 else 0)))
    ∧ (∀ (fbc : FbcData) (g : StallGlobals) (s1 s2 : Int),
        (fbcStallDetect fbc g s1 s2).1 = true →
        (fbcStallDetect fbc g s1 s2).2 = ⟨0, 0⟩)
    ∧ (∀ (fbc : FbcData) (v : Int),
        fbc.output ≠ fbc.neg_deadband → fbc.output ≠ fbc.pos_deadband →
        stallTrace fbc (List.replicate (fbc.acceptableConfidence + 1) (v, v))
            ⟨v, 0⟩
          = (List.replicate fbc.acceptableConfidence false ++ [true], ⟨0, 0⟩))
    ∧ (∀ (fbc : FbcData) (inputs : List (Int × Int)),
        inputs.length ≤ fbc.acceptableConfidence →
        ∀ b ∈ (stallTrace fbc inputs ⟨0, 0⟩).1, b = false) := by
  refine ⟨?_, ?_, ?_, ?_⟩
  · intro fbc g s1 s2 hnd hpd
    have hex : ¬(fbc.output = fbc.neg_deadband ∨ fbc.output = fbc.pos_deadband) :=
      not_or.mpr ⟨hnd, hpd⟩
    rw [fbcStallDetect_not_exempt fbc g s1 s2 hex]
    by_cases hP : (if (s1 - g._prev).natAbs < minStuck fbc
        then g._count + 1 else 0) > fbc.acceptableConfidence
    · rw [if_pos hP]
      simpa using hP
    · rw [if_neg hP]
      simpa using hP
  · intro fbc g s1 s2 h
    by_cases hex : fbc.output = fbc.neg_deadband ∨ fbc.output = fbc.pos_deadband
    · unfold fbcStallDetect at h
      simp [if_pos hex] at h
    · rw [fbcStallDetect_not_exempt fbc g s1 s2 hex] at h ⊢
      by_cases hP : (if (s1 - g._prev).natAbs < minStuck fbc
          then g._count + 1 else 0) > fbc.acceptableConfidence
      · rw [if_pos hP]
      · rw [if_neg hP] at h
        simp at h
  · intro fbc v hnd hpd
    have hex : ¬(fbc.output = fbc.neg_deadband ∨ fbc.output = fbc.pos_deadband) :=
      not_or.mpr ⟨hnd, hpd⟩
    exact stallTrace_stuck_run fbc v hex fbc.acceptableConfidence 0 (by omega)
  · intro fbc inputs hlen
    exact stallTrace_all_false fbc inputs ⟨0, 0⟩ (by simpa using hlen)

/-- Witness for C4: a threshold-1 controller whose history already holds
one stuck cycle fires and clears on the next check, and a fresh two-cycle
stuck run reports false then true. -/
theorem fbcStallDetect_one_shot_witness :
    (fbcStallDetect ⟨0, -5, 5, 0, 1, 0, 1, 0⟩ ⟨0, 1⟩ 0 0).2 = ⟨0, 0⟩
    ∧ stallTrace ⟨0, -5, 5, 0, 1, 0, 1, 0⟩ (List.replicate 2 (0, 0)) ⟨0, 0⟩
        = ([false, true], ⟨0, 0⟩) := by
  constructor
  · exact fbcStallDetect_one_shot.2.1 _ _ _ _ (by decide)
  · have h := fbcStallDetect_one_shot.2.2.1 ⟨0, -5, 5, 0, 1, 0, 1, 0⟩ 0
      (by decide) (by decide)
    simpa using h

/-- Counterexample for C5: the claim reads "every invocation … updates
the previous-sensed-value to the current sensed value … including calls
where the dead-band exemption … makes the cycle count reset".  On the
exemption path the source returns before the update, leaving `_prev`
stale (5, not the current 9); and on a stall-declaring call `_prev` is
reset to 0, not to the current 9 either. -/
theorem fbcStallDetect_prev_stale_counterexample :
    ((fbcStallDetect ⟨0, -5, 5, 0, 0, 0, 5, 0⟩ ⟨5, 3⟩ 9 9).2._prev = 5
      ∧ (5 : Int) ≠ 9)
    ∧ ((fbcStallDetect ⟨0, -5, 5, 0, 0, 0, 1, 0⟩ ⟨9, 3⟩ 9 9).1 = true
      ∧ (fbcStallDetect ⟨0, -5, 5, 0, 0, 0, 1, 0⟩ ⟨9, 3⟩ 9 9).2._prev = 0
      ∧ (0 : Int) ≠ 9) := by decide

/-- Claim C5 as amended: the previous-sensed-value is updated to the
current (second) sensor reading on every call that neither takes the
dead-band exemption early return (which leaves the whole history except
the cleared count untouched) nor declares a stall (which resets `_prev`
to 0 instead). -/
theorem fbcStallDetect_prev_update (fbc : FbcData) (g : StallGlobals)
    (s1 s2 : Int) :
    (fbc.output = fbc.neg_deadband ∨ fbc.output = fbc.pos_deadband →
      (fbcStallDetect fbc g s1 s2).2._prev = g._prev
      ∧ (fbcStallDetect fbc g s1 s2).1 = false
      ∧ (fbcStallDetect fbc g s1 s2).2._count = 0)
    ∧ (¬(fbc.output = fbc.neg_deadband ∨ fbc.output = fbc.pos_deadband) →
      (fbcStallDetect fbc g s1 s2).1 = false →
      (fbcStallDetect fbc g s1 s2).2._prev = s2)
    ∧ ((fbcStallDetect fbc g s1 s2).1 = true →
      (fbcStallDetect fbc g s1 s2).2._prev = 0) := by
  refine ⟨fun hex => ?_, fun hex hfalse => ?_, fun htrue => ?_⟩
  · unfold fbcStallDetect
    simp [if_pos hex]
  · rw [fbcStallDetect_not_exempt fbc g s1 s2 hex] at hfalse ⊢
    by_cases hP : (if (s1 - g._prev).natAbs < minStuck fbc
        then g._count + 1 else 0) > fbc.acceptableConfidence
    · rw [if_pos hP] at hfalse
      simp at hfalse
    · rw [if_neg hP]
  · by_cases hex : fbc.output = fbc.neg_deadband ∨ fbc.output = fbc.pos_deadband
    · unfold fbcStallDetect at htrue
      simp [if_pos hex] at htrue
    · rw [fbcStallDetect_not_exempt fbc g s1 s2 hex] at htrue ⊢
      by_cases hP : (if (s1 - g._prev).natAbs < minStuck fbc
          then g._count + 1 else 0) > fbc.acceptableConfidence
      · rw [if_pos hP]
      · rw [if_neg hP] at htrue
        simp at htrue

/-- Witness for C5 (amended): a non-exempt, non-stalling call stores the
second sensor reading 11 as the new previous value. -/
theorem fbcStallDetect_prev_update_witness :
    (fbcStallDetect ⟨0, -5, 5, 0, 5, 0, 1, 0⟩ ⟨5, 3⟩ 9 11).2._prev = 11 :=
  (fbcStallDetect_prev_update ⟨0, -5, 5, 0, 5, 0, 1, 0⟩ ⟨5, 3⟩ 9 11).2.1
    (by decide) (by decide)

/-- Counterexample for C6: the claim reads "if the stall-override
callback is absent, the built-in heuristic still applies and isConfident
can report STALLED".  At a concrete state where the built-in heuristic
would report a stall, `fbcIsConfident` with a NULL `stallDetect` pointer
answers plain CONFIDENT (1), never the stall sentinel. -/
theorem fbcIsConfident_null_detector_counterexample :
    (fbcStallDetect ⟨0, -5, 5, 8, 0, 0, 1, 0⟩ ⟨0, 0⟩ 0 0).1 = true
    ∧ fbcIsConfident ⟨0, -5, 5, 8, 0, 0, 1, 0⟩ none ⟨0, 0⟩ 0 0 = (1, ⟨0, 0⟩)
    ∧ (1 : Int) ≠ FBC_STALL := by decide

/-- Claim C6 as amended: when the `stallDetect` capability is absent, no
stall detection runs at all — `fbcIsConfident` never returns the stall
sentinel and leaves the stall history untouched; the built-in heuristic
applies only when it is itself installed as the capability, in which case
the sentinel is returned exactly when the heuristic reports true. -/
theorem fbcIsConfident_no_stall_when_absent :
    (∀ (fbc : FbcData) (g : StallGlobals) (s1 s2 : Int),
      (fbcIsConfident fbc none g s1 s2).1 ≠ FBC_STALL
      ∧ (fbcIsConfident fbc none g s1 s2).2 = g)
    ∧ (∀ (fbc : FbcData) (g : StallGlobals) (s1 s2 : Int),
      ((fbcIsConfident fbc (some fbcStallDetect) g s1 s2).1 = FBC_STALL
        ↔ (fbcStallDetect fbc g s1 s2).1 = true)) := by
  constructor
  · intro fbc g s1 s2
    have hout : fbcIsConfident fbc none g s1 s2
        = (if fbc.acceptableConfidence ≤ fbc._confidence then (1 : Int) else 0,
          g) := rfl
    rw [hout]
    refine ⟨?_, rfl⟩
    split <;> simp [FBC_STALL]
  · intro fbc g s1 s2
    have hrw : fbcIsConfident fbc (some fbcStallDetect) g s1 s2
        = (if (fbcStallDetect fbc g s1 s2).1
            then (FBC_STALL, (fbcStallDetect fbc g s1 s2).2)
            else ((if fbc.acceptableConfidence ≤ fbc._confidence
              then (1 : Int) else 0), (fbcStallDetect fbc g s1 s2).2)) := rfl
    rw [hrw]
    by_cases hb : (fbcStallDetect fbc g s1 s2).1 = true
    · rw [if_pos hb]
      simp [hb]
    · have hb' : (fbcStallDetect fbc g s1 s2).1 = false := by
        cases hB : (fbcStallDetect fbc g s1 s2).1 <;> simp_all
      rw [if_neg hb]
      simp only [hb']
      split <;> simp [FBC_STALL]

/-- Witness for C6 (amended): a stuck controller state with no installed
detector still answers a non-stall result and leaves the history cell
unchanged. -/
theorem fbcIsConfident_no_stall_when_absent_witness :
    (fbcIsConfident ⟨0, -5, 5, 8, 0, 0, 1, 0⟩ none ⟨0, 0⟩ 0 0).1 ≠ FBC_STALL
    ∧ (fbcIsConfident ⟨0, -5, 5, 8, 0, 0, 1, 0⟩ none ⟨0, 0⟩ 0 0).2 = ⟨0, 0⟩ :=
  fbcIsConfident_no_stall_when_absent.1 ⟨0, -5, 5, 8, 0, 0, 1, 0⟩ ⟨0, 0⟩ 0 0

/-- Claim C7: `fbcRunCompletion` with timeout 0 never exits by timeout:
whenever the loop returns, its last step answered CONFIDENT or the stall
sentinel (never NOT_CONFIDENT) and the returned flag reports no expiry.
For a nonzero timeout the elapsed time is re-checked against the timeout
before every further wait, so the loop is forced to return once
`start + timeout` lies behind the running `now`: fuel covering the
timeout's worth of loop intervals always suffices. -/
theorem fbcRunCompletion_timeout_semantics :
    (∀ (env : Env) (start : Nat) (fuel : Nat) (k now : Nat) (fbc : FbcData)
        (g : StallGlobals) (r : Int) (b : Bool) (fbc1 : FbcData)
        (g1 : StallGlobals),
      fbcRunCompletionAux env 0 start fuel k now fbc g = some (r, b, fbc1, g1) →
      (r = 1 ∨ r = FBC_STALL) ∧ b = true)
    ∧ (∀ (env : Env) (timeout start : Nat), timeout ≠ 0 →
      ∀ (fuel : Nat) (k now : Nat) (fbc : FbcData) (g : StallGlobals),
        1 ≤ fuel → start + timeout < now + FBC_LOOP_INTERVAL * (fuel - 1) →
        (fbcRunCompletionAux env timeout start fuel k now fbc g).isSome = true) := by
  constructor
  · intro env start fuel
    induction fuel with
    | zero =>
        intro k now fbc g r b fbc1 g1 h
        simp [fbcRunCompletionAux] at h
    | succ fuel ih =>
        intro k now fbc g r b fbc1 g1 h
        rw [fbcRunCompletionAux] at h
        by_cases hr : (fbcRunContinuous fbc env.compute env.sd g
            (env.inputs k) now).1 ≠ 0
        · rw [if_pos hr] at h
          simp only [Option.some.injEq, Prod.mk.injEq] at h
          obtain ⟨h1, h2, -, -⟩ := h
          constructor
          · rw [← h1]
            have := fbcIsConfident_cases
              (fbcGenerateOutput fbc env.compute (env.inputs k).sGen now).2
              env.sd g (env.inputs k).s1 (env.inputs k).s2
            rcases this with h0 | h0 | h0
            · exact absurd h0 hr
            · exact Or.inl h0
            · exact Or.inr h0
          · rw [← h2]
            simp
        · rw [if_neg hr] at h
          have htno : (decide ((0 : Nat) = 0 ∨ now ≤ start + 0) : Bool) = true := by
            simp
          rw [htno] at h
          simp only [if_true] at h
          exact ih (k + 1) (now + FBC_LOOP_INTERVAL) _ _ r b fbc1 g1 h
  · intro env timeout start htz fuel
    induction fuel with
    | zero =>
        intro k now fbc g h1 h2
        omega
    | succ fuel ih =>
        intro k now fbc g h1 h2
        rw [fbcRunCompletionAux]
        by_cases hr : (fbcRunContinuous fbc env.compute env.sd g
            (env.inputs k) now).1 ≠ 0
        · rw [if_pos hr]
          simp
        · rw [if_neg hr]
          by_cases hn : now ≤ start + timeout
          · have hh : (decide (timeout = 0 ∨ now ≤ start + timeout) : Bool)
                = true := by simp [hn]
            rw [hh]
            simp only [if_true]
            simp only [Nat.add_sub_cancel] at h2
            cases fuel with
            | zero =>
                exfalso
                rw [Nat.mul_zero] at h2
                omega
            | succ f =>
                rw [Nat.mul_succ] at h2
                refine ih (k + 1) (now + FBC_LOOP_INTERVAL)
                  (fbcRunContinuous fbc env.compute env.sd g (env.inputs k) now).2.1
                  (fbcRunContinuous fbc env.compute env.sd g (env.inputs k) now).2.2
                  (by omega) ?_
                simp only [Nat.add_sub_cancel]
                omega
          · have hh : (decide (timeout = 0 ∨ now ≤ start + timeout) : Bool)
                = false := by simp [htz, hn]
            rw [hh]
            simp

/-- Witness for C7: with an immediately confident controller the
timeout-0 run returns result 1 with no expiry after one step, and with
timeout 5 two units of fuel already guarantee a return. -/
theorem fbcRunCompletion_timeout_semantics_witness :
    (((1 : Int) = 1 ∨ (1 : Int) = FBC_STALL) ∧ (true : Bool) = true)
    ∧ (fbcRunCompletionAux envC7 5 0 2 0 0 dC7 ⟨0, 0⟩).isSome = true := by
  constructor
  · exact fbcRunCompletion_timeout_semantics.1 envC7 0 1 0 0 dC7 ⟨0, 0⟩ 1 true
      (fbcGenerateOutput dC7 envC7.compute 0 0).2 ⟨0, 0⟩ rfl
  · exact fbcRunCompletion_timeout_semantics.2 envC7 5 0 (by decide) 2 0 0 dC7
      ⟨0, 0⟩ (by decide) (by decide)

/-- Claim C8: `fbcSetGoal` fails exactly on the NULL handle; with an
equal goal it succeeds and changes nothing (timestamp included); with a
different goal it succeeds, stores the goal and stamps the current
time. -/
theorem fbcSetGoal_spec :
    (∀ (new_goal : Int) (t : Nat), fbcSetGoal none new_goal t = (false, none))
    ∧ (∀ (c : Fbc) (new_goal : Int) (t : Nat), c.data.goal = new_goal →
      fbcSetGoal (some c) new_goal t = (true, some c))
    ∧ (∀ (c : Fbc) (new_goal : Int) (t : Nat), c.data.goal ≠ new_goal →
      fbcSetGoal (some c) new_goal t
        = (true, some { c with
            data := { c.data with goal := new_goal, _prevExecution := t } }))
    ∧ (∀ (c : Fbc) (new_goal : Int) (t : Nat),
      (fbcSetGoal (some c) new_goal t).1 = true) := by
  refine ⟨fun new_goal t => rfl, fun c new_goal t h => ?_, fun c new_goal t h => ?_,
    fun c new_goal t => ?_⟩
  · simp only [fbcSetGoal]
    rw [if_pos h]
  · simp only [fbcSetGoal]
    rw [if_neg h]
  · simp only [fbcSetGoal]
    split <;> rfl

/-- Witness for C8: setting the already stored goal 3 succeeds and
returns the very same controller, timestamp untouched. -/
theorem fbcSetGoal_spec_witness :
    fbcSetGoal (some fbcC8) 3 9 = (true, some fbcC8) :=
  fbcSetGoal_spec.2.1 fbcC8 3 9 rfl

/-- Counterexample for C9: the claim reads "init wires all injected
capabilities (move, sense, compute, resetSense, stallDetect,
resetController) … every capability the caller supplied is installed".
`fbcInit` has no `compute` parameter, and it unconditionally clears
`resetController` to NULL: a controller carrying a `resetController`
capability loses it across `fbcInit`. -/
theorem fbcInit_clears_resetController :
    (fbcInit fbcC9 (some (fun _ => ())) (some (fun _ => 0)) none
        (some fbcStallDetect) (-5) 5 8 2).resetController = none
    ∧ fbcC9.resetController ≠ none := by
  refine ⟨rfl, ?_⟩
  simp [fbcC9]

/-- Claim C9 as amended: `fbcInit` wires the four capability arguments
(move, sense, resetSense, stallDetect) and the four thresholds, sets
`resetController` to absent, leaves the separately wired `compute`
capability untouched, and then resets, so the confidence counter and the
goal are 0 afterwards. -/
theorem fbcInit_wires_and_resets (fbc : Fbc) (mv : Option (Int → Unit))
    (sn : Option (Nat → Int)) (rs : Option (Unit → Unit)) (sd : Option StallFn)
    (nd pd : Int) (tol cf : Nat) :
    (fbcInit fbc mv sn rs sd nd pd tol cf).move = mv
    ∧ (fbcInit fbc mv sn rs sd nd pd tol cf).sense = sn
    ∧ (fbcInit fbc mv sn rs sd nd pd tol cf).resetSense = rs
    ∧ (fbcInit fbc mv sn rs sd nd pd tol cf).stallDetect = sd
    ∧ (fbcInit fbc mv sn rs sd nd pd tol cf).resetController = none
    ∧ (fbcInit fbc mv sn rs sd nd pd tol cf).compute = fbc.compute
    ∧ (fbcInit fbc mv sn rs sd nd pd tol cf).data.neg_deadband = nd
    ∧ (fbcInit fbc mv sn rs sd nd pd tol cf).data.pos_deadband = pd
    ∧ (fbcInit fbc mv sn rs sd nd pd tol cf).data.acceptableTolerance = tol
    ∧ (fbcInit fbc mv sn rs sd nd pd tol cf).data.acceptableConfidence = cf
    ∧ (fbcInit fbc mv sn rs sd nd pd tol cf).data._confidence = 0
    ∧ (fbcInit fbc mv sn rs sd nd pd tol cf).data.goal = 0 :=
  ⟨rfl, rfl, rfl, rfl, rfl, rfl, rfl, rfl, rfl, rfl, rfl, rfl⟩

/-- Counterexample for C10: the claim reads "immediately after init or
reset, isConfident already reports CONFIDENT … regardless".  With
threshold 0, a wired built-in detector and a stuck sensor, the very first
query after `fbcInit` answers the stall sentinel instead of CONFIDENT. -/
theorem acceptableConfidence_zero_stall_counterexample :
    (fbcInit fbcC10 none none none (some fbcStallDetect) (-5) 5 8 0).data._confidence
      = 0
    ∧ (fbcIsConfident
        (fbcInit fbcC10 none none none (some fbcStallDetect) (-5) 5 8 0).data
        (fbcInit fbcC10 none none none (some fbcStallDetect) (-5) 5 8 0).stallDetect
        ⟨0, 0⟩ 0 0).1 = FBC_STALL
    ∧ FBC_STALL ≠ 1 :=
  ⟨rfl, rfl, by decide⟩

/-- Claim C10 as amended: with `acceptableConfidence` 0 the confidence
test already passes right after `fbcInit` (counter 0 meets threshold 0),
so `fbcIsConfident` answers CONFIDENT whenever no stall capability is
installed — a wired detector that fires yields the stall sentinel
instead — and `fbcRunCompletion` returns after its very first step in
either case (fuel 1 suffices, whatever the timeout and the readings). -/
theorem acceptableConfidence_zero_immediate :
    (∀ (fbc : Fbc) (mv : Option (Int → Unit)) (sn : Option (Nat → Int))
        (rs : Option (Unit → Unit)) (sd : Option StallFn) (nd pd : Int)
        (tol : Nat),
      (fbcInit fbc mv sn rs sd nd pd tol 0).data._confidence = 0
      ∧ ∀ (g : StallGlobals) (s1 s2 : Int),
          (fbcIsConfident (fbcInit fbc mv sn rs sd nd pd tol 0).data none
            g s1 s2).1 = 1)
    ∧ (∀ (env : Env) (timeout start k now : Nat) (fbc : FbcData)
        (g : StallGlobals),
      fbc.acceptableConfidence = 0 →
      (fbcRunCompletionAux env timeout start 1 k now fbc g).isSome = true) := by
  constructor
  · intro fbc mv sn rs sd nd pd tol
    refine ⟨rfl, fun g s1 s2 => ?_⟩
    have hout : fbcIsConfident (fbcInit fbc mv sn rs sd nd pd tol 0).data none
        g s1 s2
        = (if (fbcInit fbc mv sn rs sd nd pd tol 0).data.acceptableConfidence
            ≤ (fbcInit fbc mv sn rs sd nd pd tol 0).data._confidence
          then (1 : Int) else 0, g) := rfl
    rw [hout, if_pos (by exact Nat.le_refl 0)]
  · intro env timeout start k now fbc g h
    rw [fbcRunCompletionAux]
    have hne : (fbcRunContinuous fbc env.compute env.sd g
        (env.inputs k) now).1 ≠ 0 := by
      apply fbcIsConfident_ne_zero_of_conf_zero
      exact h
    rw [if_pos hne]
    simp

/-- Witness for C10 (amended): a concrete threshold-0 controller returns
from the completion loop within one step even under a nonzero timeout. -/
theorem acceptableConfidence_zero_immediate_witness :
    (fbcRunCompletionAux envC10 7 0 1 0 0 dC10 ⟨0, 0⟩).isSome = true :=
  acceptableConfidence_zero_immediate.2 envC10 7 0 0 0 dC10 ⟨0, 0⟩ rfl

end Fbcl
